import Mathlib

/-!
Verification of the WebGPU STL-deformation core.

Shallow embedding of the compute kernel in `src/StlOperations.js`
(WGSL `COMPUTE_SHADER`), the host-side dispatch and uniform encoding
in `StlOperations.processOperation`, the readback path in
`GPUManager.readBuffer`, and the resize/render guards in `Renderer.js`.
Shader floating-point arithmetic is modelled over the real numbers.
-/

namespace WebGpuStl

/-- A 3-component vector of shader scalars, modelled over the reals
(WGSL f32 arithmetic is idealised as real arithmetic). -/
@[ext]
structure Vec3 where
  x : ℝ
  y : ℝ
  z : ℝ

/-- WGSL `struct Params` from the compute shader: `operation: u32`,
`param_value: f32`, `vertex_count: u32`, `_pad: u32`. -/
structure Params where
  operation : ℕ
  param_value : ℝ
  vertex_count : ℕ
  pad : ℕ

/-- WGSL builtin `clamp(e, lo, hi) = min(max(e, lo), hi)`. -/
noncomputable def wgslClamp (e lo hi : ℝ) : ℝ := min (max e lo) hi

/-- The body of the compute-shader `main` for one in-bounds invocation:
given the vertex `(x, y, z)` read at `base = idx * 3`, produce the
output triple `(ox, oy, oz)`.  Direct translation of the branch on
`params.operation` in `COMPUTE_SHADER` (src/StlOperations.js lines 27-55). -/
noncomputable def kernelVertex (p : Params) (v : Vec3) : Vec3 :=
  if p.operation = 0 then
    ⟨v.x * p.param_value, v.y * p.param_value, v.z * p.param_value⟩
  else if p.operation = 1 then
    let angle := p.param_value * 3.14159265
    let c := Real.cos angle
    let s := Real.sin angle
    ⟨v.x * c + v.z * s, v.y, -v.x * s + v.z * c⟩
  else if p.operation = 2 then
    ⟨v.x, v.y + (p.param_value - 1.0) * 0.5, v.z⟩
  else if p.operation = 3 then
    let len := Real.sqrt (v.x * v.x + v.y * v.y + v.z * v.z)
    if len > 0.001 then
      let nx := v.x / len
      let ny := v.y / len
      let nz := v.z / len
      let r : ℝ := 0.5
      let t := wgslClamp p.param_value 0.0 2.0 - 1.0
      ⟨v.x + (nx * r - v.x) * t, v.y + (ny * r - v.y) * t, v.z + (nz * r - v.z) * t⟩
    else
      v
  else
    v

theorem kernelVertex_scale (param : ℝ) (vc pad : ℕ) (v : Vec3) :
    kernelVertex ⟨0, param, vc, pad⟩ v =
      ⟨v.x * param, v.y * param, v.z * param⟩ := by
  simp [kernelVertex]

theorem kernelVertex_translate (param : ℝ) (vc pad : ℕ) (v : Vec3) :
    kernelVertex ⟨2, param, vc, pad⟩ v =
      ⟨v.x, v.y + (param - 1.0) * 0.5, v.z⟩ := by
  simp [kernelVertex]

theorem kernelVertex_rotate (param : ℝ) (vc pad : ℕ) (v : Vec3) :
    kernelVertex ⟨1, param, vc, pad⟩ v =
      ⟨v.x * Real.cos (param * 3.14159265) + v.z * Real.sin (param * 3.14159265),
       v.y,
       -v.x * Real.sin (param * 3.14159265) + v.z * Real.cos (param * 3.14159265)⟩ := by
  simp [kernelVertex]

/-- Reading the vertex triple stored at flat offsets `base`, `base + 1`,
`base + 2` of a storage buffer (shader lines `let x = input_verts[base]` ...). -/
noncomputable def readVertex (buf : ℕ → ℝ) (base : ℕ) : Vec3 :=
  ⟨buf base, buf (base + 1), buf (base + 2)⟩

/-- Writing the triple `(v.x, v.y, v.z)` at flat offsets `base`, `base + 1`,
`base + 2` of a storage buffer (shader lines `output_verts[base] = ox` ...). -/
noncomputable def writeVertex (buf : ℕ → ℝ) (base : ℕ) (v : Vec3) : ℕ → ℝ :=
  fun i =>
    if i = base then v.x
    else if i = base + 1 then v.y
    else if i = base + 2 then v.z
    else buf i

/-- One invocation of the shader entry point `main` with global invocation
index `idx`: the bounds guard `if (idx >= params.vertex_count) return;`
followed by read, transform, write at `base = idx * 3`. -/
noncomputable def kernelInvoke (p : Params) (input : ℕ → ℝ) (idx : ℕ)
    (out : ℕ → ℝ) : ℕ → ℝ :=
  if p.vertex_count ≤ idx then out
  else writeVertex out (idx * 3) (kernelVertex p (readVertex input (idx * 3)))

/-- Running invocations `0, 1, ..., n - 1` of the kernel.  The shader
invocations write disjoint locations, so any serialisation of the parallel
dispatch computes the same buffer; this one runs them in index order. -/
noncomputable def runInvocations (p : Params) (input : ℕ → ℝ) :
    ℕ → (ℕ → ℝ) → ℕ → ℝ
  | 0, out => out
  | n + 1, out => kernelInvoke p input n (runInvocations p input n out)

/-- Host-side workgroup count: `Math.ceil(vertexCount / 64)` in
`processOperation` (the f64 division by 64 is exact, so this is the exact
rational ceiling). -/
def workgroups (vc : ℕ) : ℕ := ⌈(vc : ℚ) / 64⌉₊

/-- A full dispatch as issued by `processOperation`: `workgroups vc`
workgroups of size 64 along one axis, i.e. global invocation indices
`0 ≤ idx < workgroups vc * 64`, applied to the input and output buffers. -/
noncomputable def dispatch (p : Params) (input out : ℕ → ℝ) : ℕ → ℝ :=
  runInvocations p input (workgroups p.vertex_count * 64) out

theorem runInvocations_out_of_range (p : Params) (input out : ℕ → ℝ)
    (n i : ℕ) (hi : 3 * p.vertex_count ≤ i) :
    runInvocations p input n out i = out i := by
  induction n with
  | zero => rfl
  | succ n ih =>
    simp only [runInvocations, kernelInvoke]
    by_cases hn : p.vertex_count ≤ n
    · simp [hn, ih]
    · push_neg at hn
      have h1 : i ≠ n * 3 := by omega
      have h2 : i ≠ n * 3 + 1 := by omega
      have h3 : i ≠ n * 3 + 2 := by omega
      simp [hn.not_le, writeVertex, h1, h2, h3, ih]

theorem runInvocations_at_vertex (p : Params) (input out : ℕ → ℝ)
    (n idx : ℕ) (hidx : idx < p.vertex_count) (hn : idx < n) :
    runInvocations p input n out (idx * 3) =
      (kernelVertex p (readVertex input (idx * 3))).x ∧
    runInvocations p input n out (idx * 3 + 1) =
      (kernelVertex p (readVertex input (idx * 3))).y ∧
    runInvocations p input n out (idx * 3 + 2) =
      (kernelVertex p (readVertex input (idx * 3))).z := by
  induction n with
  | zero => omega
  | succ n ih =>
    simp only [runInvocations, kernelInvoke]
    rcases Nat.lt_succ_iff_lt_or_eq.mp hn with hlt | heq
    · by_cases hvc : p.vertex_count ≤ n
      · simpa [hvc] using ih hlt
      · have h1 : idx * 3 ≠ n * 3 := by omega
        have h2 : idx * 3 ≠ n * 3 + 1 := by omega
        have h3 : idx * 3 ≠ n * 3 + 2 := by omega
        have h4 : idx * 3 + 1 ≠ n * 3 := by omega
        have h5 : idx * 3 + 1 ≠ n * 3 + 1 := by omega
        have h6 : idx * 3 + 1 ≠ n * 3 + 2 := by omega
        have h7 : idx * 3 + 2 ≠ n * 3 := by omega
        have h8 : idx * 3 + 2 ≠ n * 3 + 1 := by omega
        have h9 : idx * 3 + 2 ≠ n * 3 + 2 := by omega
        simpa [hvc, writeVertex, h1, h2, h3, h4, h5, h6, h7, h8, h9] using ih hlt
    · subst heq
      have h1 : idx * 3 + 1 ≠ idx * 3 := by omega
      have h2 : idx * 3 + 2 ≠ idx * 3 := by omega
      have h3 : idx * 3 + 2 ≠ idx * 3 + 1 := by omega
      simp [hidx.not_le, writeVertex, h1, h2, h3]

theorem vc_le_workgroups_mul (vc : ℕ) : vc ≤ workgroups vc * 64 := by
  have h := Nat.le_ceil ((vc : ℚ) / 64)
  rw [div_le_iff₀ (by norm_num : (0:ℚ) < 64)] at h
  exact_mod_cast h

theorem workgroups_eq_nat_ceil_div (vc : ℕ) : workgroups vc = (vc + 63) / 64 := by
  refine Nat.le_antisymm ?_ ?_
  · rw [workgroups, Nat.ceil_le, div_le_iff₀ (by norm_num : (0:ℚ) < 64)]
    have : vc ≤ (vc + 63) / 64 * 64 := by omega
    exact_mod_cast this
  · have hle := vc_le_workgroups_mul vc
    omega

theorem dispatch_out_of_range (p : Params) (input out : ℕ → ℝ) (i : ℕ)
    (hi : 3 * p.vertex_count ≤ i) : dispatch p input out i = out i :=
  runInvocations_out_of_range p input out _ i hi

theorem dispatch_at_vertex (p : Params) (input out : ℕ → ℝ) (idx : ℕ)
    (hidx : idx < p.vertex_count) :
    dispatch p input out (idx * 3) =
      (kernelVertex p (readVertex input (idx * 3))).x ∧
    dispatch p input out (idx * 3 + 1) =
      (kernelVertex p (readVertex input (idx * 3))).y ∧
    dispatch p input out (idx * 3 + 2) =
      (kernelVertex p (readVertex input (idx * 3))).z :=
  runInvocations_at_vertex p input out _ idx hidx
    (lt_of_lt_of_le hidx (vc_le_workgroups_mul p.vertex_count))

/-- The hardcoded cube positions from `StlOperations.generateCubeMesh`
(8 vertices as flat float triples). -/
noncomputable def cubePositions : List ℝ :=
  [-0.5, -0.5, -0.5,
    0.5, -0.5, -0.5,
    0.5,  0.5, -0.5,
   -0.5,  0.5, -0.5,
   -0.5, -0.5,  0.5,
    0.5, -0.5,  0.5,
    0.5,  0.5,  0.5,
   -0.5,  0.5,  0.5]

/-- The hardcoded cube triangle indices from `generateCubeMesh`. -/
def cubeIndices : List ℕ :=
  [4, 5, 6, 4, 6, 7,
   1, 0, 3, 1, 3, 2,
   5, 1, 2, 5, 2, 6,
   0, 4, 7, 0, 7, 3,
   7, 6, 2, 7, 2, 3,
   0, 1, 5, 0, 5, 4]

/-- `meshData.vertexCount = positions.length / 3` for the cube. -/
noncomputable def cubeVertexCount : ℕ := cubePositions.length / 3

/-- The cube position buffer as uploaded to the input storage buffer:
flat f32 array, reads beyond the buffer end modelled as 0. -/
noncomputable def cubeInput : ℕ → ℝ := fun i => cubePositions.getD i 0

theorem cubeVertexCount_eq : cubeVertexCount = 8 := by
  simp [cubeVertexCount, cubePositions]

/-- `const OP_MAP = { scale: 0, rotate: 1, translate: 2, inflate: 3 }`. -/
def OP_MAP (name : String) : Option ℕ :=
  if name = "scale" then some 0
  else if name = "rotate" then some 1
  else if name = "translate" then some 2
  else if name = "inflate" then some 3
  else none

/-- `const opIndex = OP_MAP[operation] ?? 0` in `processOperation`. -/
def opIndexOf (name : String) : ℕ := (OP_MAP name).getD 0

/-- `DataView.setUint32(off, v, true)`: write the four bytes of the 32-bit
value `v` at offsets `off .. off + 3`, least-significant byte first. -/
def setUint32LE (buf : List ℕ) (off v : ℕ) : List ℕ :=
  (((buf.set off (v % 256)).set (off + 1) (v / 256 % 256)).set
      (off + 2) (v / 65536 % 256)).set (off + 3) (v / 16777216 % 256)

/-- The 16-byte uniform payload built by `processOperation`:
`new ArrayBuffer(16)` (zero-initialised), then
`setUint32(0, opIndex, true)`, `setFloat32(4, param, true)`,
`setUint32(8, vertexCount, true)`, `setUint32(12, 0, true)`.
`setFloat32` stores the IEEE-754 bit pattern of `param` little-endian;
the real-to-bit-pattern conversion itself is not modelled, so `paramBits`
stands for that 32-bit pattern. -/
def uniformData (opIndex paramBits vertexCount : ℕ) : List ℕ :=
  setUint32LE (setUint32LE (setUint32LE (setUint32LE
    (List.replicate 16 0) 0 opIndex) 4 paramBits) 8 vertexCount) 12 0

/-- Little-endian decoding of the 32-bit word at offsets `off .. off + 3`. -/
def getUint32LE (buf : List ℕ) (off : ℕ) : ℕ :=
  buf.getD off 0 + 256 * buf.getD (off + 1) 0 +
    65536 * buf.getD (off + 2) 0 + 16777216 * buf.getD (off + 3) 0

theorem uniformData_bytes (a b c : ℕ) :
    uniformData a b c =
      [a % 256, a / 256 % 256, a / 65536 % 256, a / 16777216 % 256,
       b % 256, b / 256 % 256, b / 65536 % 256, b / 16777216 % 256,
       c % 256, c / 256 % 256, c / 65536 % 256, c / 16777216 % 256,
       0, 0, 0, 0] := rfl

/-- A fragment of the JS heap holding the float arrays the engine works
with.  Every allocated array lives at an id below `next`; allocating
(`new Float32Array`, `.slice()`) installs the content at the fresh id
`next`. -/
structure JSHeap where
  arrays : ℕ → List ℝ
  next : ℕ

noncomputable def JSHeap.alloc (h : JSHeap) (content : List ℝ) : JSHeap × ℕ :=
  (⟨Function.update h.arrays h.next content, h.next + 1⟩, h.next)

/-- The observable state of `StlOperations` after `generateCubeMesh` /
`createBuffers`: `meshData.vertices` is a heap reference (`verticesRef`),
`meshData.indices` and `vertexCount` are stored values, and the two GPU
storage buffers hold flat f32 data (`inputBuffer` was filled from the
vertices by `createBuffers`; `outputBuffer` is written by dispatches). -/
structure StlState where
  heap : JSHeap
  verticesRef : ℕ
  indices : List ℕ
  vertexCount : ℕ
  inputBuffer : ℕ → ℝ
  outputBuffer : ℕ → ℝ

/-- `processOperation(operation, param)`: writes the uniform, dispatches
the kernel over the GPU buffers, and leaves `meshData` and the JS heap
untouched. -/
noncomputable def processOperationStep (s : StlState) (op : String) (param : ℝ) :
    StlState :=
  { s with outputBuffer :=
      dispatch ⟨opIndexOf op, param, s.vertexCount, 0⟩ s.inputBuffer s.outputBuffer }

/-- `getProcessedVertices()`: `gpuManager.readBuffer(outputBuffer, size)`
with `size = meshData.vertices.byteLength`; `readBuffer` copies the device
data into a staging buffer and returns
`new Float32Array(staging.getMappedRange()).slice()` — a freshly allocated
array holding the first `vertices.length` floats of the output buffer. -/
noncomputable def getProcessedVerticesStep (s : StlState) : StlState × ℕ :=
  let count := (s.heap.arrays s.verticesRef).length
  let ar := s.heap.alloc ((List.range count).map s.outputBuffer)
  ({ s with heap := ar.1 }, ar.2)

/-- The host-facing calls between two resets that touch the engine state. -/
inductive Cmd where
  | process (op : String) (param : ℝ)
  | getVertices

/-- One host call; `getVertices` returns the heap id of the fresh result
array. -/
noncomputable def stepCmd (s : StlState) (c : Cmd) : StlState × Option ℕ :=
  match c with
  | .process op param => (processOperationStep s op param, none)
  | .getVertices =>
      let sr := getProcessedVerticesStep s
      (sr.1, some sr.2)

/-- Running a sequence of host calls, collecting the heap ids of all
arrays returned by `getProcessedVertices`. -/
noncomputable def runCmds (s : StlState) : List Cmd → StlState × List ℕ
  | [] => (s, [])
  | c :: cs =>
      let sr := stepCmd s c
      let rest := runCmds sr.1 cs
      (rest.1, sr.2.toList ++ rest.2)

/-- Well-formedness of the heap fragment: the stored vertex array is an
already-allocated id. -/
def StlWF (s : StlState) : Prop := s.verticesRef < s.heap.next

/-- The display-surface state `Renderer` reads and writes: the canvas
client (layout) size, the canvas drawing-buffer size, and the depth
texture (its size when created). -/
structure Canvas where
  clientWidth : ℕ
  clientHeight : ℕ
  width : ℕ
  height : ℕ

/-- The `Renderer` fields involved in resize/render: canvas, depth
texture, and the camera state read by `buildMVP`. -/
structure RendererState where
  canvas : Canvas
  depthTexture : Option (ℕ × ℕ)
  zoom : ℝ
  rotX : ℝ
  rotY : ℝ

/-- `Renderer.resizeCanvas()`: reads the client size; if either dimension
is 0 it returns early, otherwise it copies the client size into the
drawing-buffer size and recreates the depth texture at that size. -/
def resizeCanvas (s : RendererState) : RendererState :=
  if s.canvas.clientWidth = 0 ∨ s.canvas.clientHeight = 0 then s
  else
    { s with
      canvas := { s.canvas with
        width := s.canvas.clientWidth, height := s.canvas.clientHeight },
      depthTexture := some (s.canvas.clientWidth, s.canvas.clientHeight) }

/-- A window resize event: layout sets the canvas client size to
`(w, h)`, then the registered listener calls `resizeCanvas()`. -/
def resizeEvent (s : RendererState) (w h : ℕ) : RendererState :=
  resizeCanvas
    { s with canvas := { s.canvas with clientWidth := w, clientHeight := h } }

/-- `Renderer.mat4Mul(a, b)`: 4x4 row-major multiply on flat 16-entry
arrays, `r[i*4+j] = sum over k of a[i*4+k] * b[k*4+j]`. -/
noncomputable def mat4Mul (a b : ℕ → ℝ) : ℕ → ℝ := fun n =>
  if n < 16 then
    a (n / 4 * 4 + 0) * b (0 * 4 + n % 4) +
    a (n / 4 * 4 + 1) * b (1 * 4 + n % 4) +
    a (n / 4 * 4 + 2) * b (2 * 4 + n % 4) +
    a (n / 4 * 4 + 3) * b (3 * 4 + n % 4)
  else 0

/-- `Renderer.buildMVP()`: perspective projection (fov 45 degrees,
near 0.1, far 100), view translation by `-zoom` along Z, model =
rotX composed with rotY, final = proj * (view * model). -/
noncomputable def buildMVP (s : RendererState) : ℕ → ℝ :=
  let aspect := (s.canvas.width : ℝ) / (s.canvas.height : ℝ)
  let f := 1 / Real.tan (Real.pi / 4 / 2)
  let near : ℝ := 0.1
  let far : ℝ := 100
  let proj : ℕ → ℝ := fun n =>
    if n = 0 then f / aspect
    else if n = 5 then f
    else if n = 10 then (far + near) / (near - far)
    else if n = 11 then -1
    else if n = 14 then 2 * far * near / (near - far)
    else 0
  let view : ℕ → ℝ := fun n =>
    if n = 14 then -s.zoom
    else if n = 0 ∨ n = 5 ∨ n = 10 ∨ n = 15 then 1
    else 0
  let cx := Real.cos s.rotX
  let sx := Real.sin s.rotX
  let cy := Real.cos s.rotY
  let sy := Real.sin s.rotY
  let rotY : ℕ → ℝ := fun n =>
    if n = 0 then cy else if n = 2 then sy
    else if n = 5 then 1
    else if n = 8 then -sy else if n = 10 then cy
    else if n = 15 then 1 else 0
  let rotX : ℕ → ℝ := fun n =>
    if n = 0 then 1
    else if n = 5 then cx else if n = 6 then -sx
    else if n = 9 then sx else if n = 10 then cx
    else if n = 15 then 1 else 0
  mat4Mul proj (mat4Mul view (mat4Mul rotX rotY))

/-- `Renderer.render()`: returns early (no matrix build, no command
submission) when the depth texture does not exist or the canvas width is
0; otherwise builds the MVP matrix and submits one frame, modelled as the
matrix written to the uniform buffer. -/
noncomputable def render (s : RendererState) : Option (ℕ → ℝ) :=
  if s.depthTexture = none ∨ s.canvas.width = 0 then none
  else some (buildMVP s)

theorem dispatch_scale_apply (c : ℝ) (vc pad : ℕ) (input out : ℕ → ℝ)
    (i : ℕ) (hi : i < 3 * vc) :
    dispatch ⟨0, c, vc, pad⟩ input out i = input i * c := by
  obtain ⟨h1, h2, h3⟩ :=
    dispatch_at_vertex ⟨0, c, vc, pad⟩ input out (i / 3) (show i / 3 < vc by omega)
  rw [kernelVertex_scale] at h1 h2 h3
  simp only [readVertex] at h1 h2 h3
  rcases (by omega : i % 3 = 0 ∨ i % 3 = 1 ∨ i % 3 = 2) with h | h | h
  · have he : i = i / 3 * 3 := by omega
    rw [he]; exact h1
  · have he : i = i / 3 * 3 + 1 := by omega
    rw [he]; exact h2
  · have he : i = i / 3 * 3 + 2 := by omega
    rw [he]; exact h3

/-- Claim C1: the Scale branch (op 0) multiplies all three coordinates by
`param`; `param = 1` is the identity; applying Scale(2.0) to the generated
cube makes every output coordinate (flat index `i < 3 * vertexCount`)
equal to twice the corresponding input coordinate, for any initial
contents of the output buffer. -/
theorem scale_kernel_correct :
    (∀ (param : ℝ) (vc pad : ℕ) (v : Vec3),
      kernelVertex ⟨0, param, vc, pad⟩ v =
        ⟨param * v.x, param * v.y, param * v.z⟩) ∧
    (∀ (vc pad : ℕ) (v : Vec3), kernelVertex ⟨0, 1, vc, pad⟩ v = v) ∧
    (∀ (out : ℕ → ℝ) (i : ℕ), i < 3 * cubeVertexCount →
      dispatch ⟨0, 2, cubeVertexCount, 0⟩ cubeInput out i = 2 * cubeInput i) := by
  refine ⟨?_, ?_, ?_⟩
  · intro param vc pad v
    rw [kernelVertex_scale]
    ext <;> simp [mul_comm]
  · intro vc pad v
    rw [kernelVertex_scale]
    ext <;> simp
  · intro out i hi
    rw [dispatch_scale_apply 2 cubeVertexCount 0 cubeInput out i hi, mul_comm]

theorem scale_kernel_correct_witness :
    (0 : ℕ) < 3 * cubeVertexCount ∧
    dispatch ⟨0, 2, cubeVertexCount, 0⟩ cubeInput (fun _ => 0) 0 =
      2 * cubeInput 0 := by
  have h : (0 : ℕ) < 3 * cubeVertexCount := by rw [cubeVertexCount_eq]; norm_num
  exact ⟨h, scale_kernel_correct.2.2 (fun _ => 0) 0 h⟩

/-- Claim C2: the Translate branch (op 2) leaves x and z unchanged and sets
`y + (param - 1) * 0.5`; applying Translate(3.0) to the generated cube
leaves every X and Z output equal to the input and makes every Y output
equal to the input Y plus 1. -/
theorem translate_kernel_correct :
    (∀ (param : ℝ) (vc pad : ℕ) (v : Vec3),
      kernelVertex ⟨2, param, vc, pad⟩ v =
        ⟨v.x, v.y + (param - 1) * 0.5, v.z⟩) ∧
    (∀ (out : ℕ → ℝ) (idx : ℕ), idx < cubeVertexCount →
      dispatch ⟨2, 3, cubeVertexCount, 0⟩ cubeInput out (idx * 3) =
        cubeInput (idx * 3) ∧
      dispatch ⟨2, 3, cubeVertexCount, 0⟩ cubeInput out (idx * 3 + 1) =
        cubeInput (idx * 3 + 1) + 1 ∧
      dispatch ⟨2, 3, cubeVertexCount, 0⟩ cubeInput out (idx * 3 + 2) =
        cubeInput (idx * 3 + 2)) := by
  constructor
  · intro param vc pad v
    rw [kernelVertex_translate]
    norm_num
  · intro out idx hidx
    obtain ⟨h1, h2, h3⟩ :=
      dispatch_at_vertex ⟨2, 3, cubeVertexCount, 0⟩ cubeInput out idx hidx
    rw [kernelVertex_translate] at h1 h2 h3
    simp only [readVertex] at h1 h2 h3
    refine ⟨h1, ?_, h3⟩
    rw [h2]; norm_num

theorem translate_kernel_correct_witness :
    (0 : ℕ) < cubeVertexCount ∧
    (dispatch ⟨2, 3, cubeVertexCount, 0⟩ cubeInput (fun _ => 0) (0 * 3) =
        cubeInput (0 * 3) ∧
      dispatch ⟨2, 3, cubeVertexCount, 0⟩ cubeInput (fun _ => 0) (0 * 3 + 1) =
        cubeInput (0 * 3 + 1) + 1 ∧
      dispatch ⟨2, 3, cubeVertexCount, 0⟩ cubeInput (fun _ => 0) (0 * 3 + 2) =
        cubeInput (0 * 3 + 2)) := by
  have h : (0 : ℕ) < cubeVertexCount := by rw [cubeVertexCount_eq]; norm_num
  exact ⟨h, translate_kernel_correct.2 (fun _ => 0) 0 h⟩

/-- Claim C4: the Rotate branch (op 1) rotates about the Y axis by
`param * 3.14159265` radians with `x' = x cos + z sin`,
`z' = -x sin + z cos`, `y' = y`; over real arithmetic, applying it with
parameter `param` and then with `-param` returns the original point
exactly (round-trip). -/
theorem rotate_round_trip (param : ℝ) (vc pad vc2 pad2 : ℕ) (v : Vec3) :
    kernelVertex ⟨1, -param, vc2, pad2⟩ (kernelVertex ⟨1, param, vc, pad⟩ v) = v := by
  rw [kernelVertex_rotate, kernelVertex_rotate]
  have hc : Real.cos (-param * 3.14159265) = Real.cos (param * 3.14159265) := by
    rw [neg_mul, Real.cos_neg]
  have hs : Real.sin (-param * 3.14159265) = -Real.sin (param * 3.14159265) := by
    rw [neg_mul, Real.sin_neg]
  rw [hc, hs]
  have hpyth := Real.sin_sq_add_cos_sq (param * 3.14159265)
  ext
  · dsimp only
    linear_combination v.x * hpyth
  · rfl
  · dsimp only
    linear_combination v.z * hpyth

theorem kernelVertex_inflate (param : ℝ) (vc pad : ℕ) (v : Vec3) :
    kernelVertex ⟨3, param, vc, pad⟩ v =
      if Real.sqrt (v.x * v.x + v.y * v.y + v.z * v.z) > 0.001 then
        ⟨v.x + (v.x / Real.sqrt (v.x * v.x + v.y * v.y + v.z * v.z) * 0.5 - v.x) *
            (wgslClamp param 0.0 2.0 - 1.0),
         v.y + (v.y / Real.sqrt (v.x * v.x + v.y * v.y + v.z * v.z) * 0.5 - v.y) *
            (wgslClamp param 0.0 2.0 - 1.0),
         v.z + (v.z / Real.sqrt (v.x * v.x + v.y * v.y + v.z * v.z) * 0.5 - v.z) *
            (wgslClamp param 0.0 2.0 - 1.0)⟩
      else v := by
  simp [kernelVertex]

theorem wgslClamp_zero : wgslClamp 0 0.0 2.0 = 0 := by
  norm_num [wgslClamp]

theorem wgslClamp_one : wgslClamp 1 0.0 2.0 = 1 := by
  norm_num [wgslClamp]

theorem wgslClamp_two : wgslClamp 2 0.0 2.0 = 2 := by
  norm_num [wgslClamp]

/-- Claim C3 counterexample: the vertex `(1, 0, 0)` (distance 1 from the
origin, so not near the origin) is mapped by Inflate with `param = 0` to a
point at distance 1.5 from the origin, not distance 0.5 as claimed. -/
theorem inflate_param_zero_distance_counterexample :
    kernelVertex ⟨3, 0, 8, 0⟩ ⟨1, 0, 0⟩ = ⟨1.5, 0, 0⟩ ∧
    Real.sqrt ((1.5 : ℝ) * 1.5 + 0 * 0 + 0 * 0) = 1.5 ∧
    (1.5 : ℝ) ≠ 0.5 := by
  have harg : (1 : ℝ) * 1 + 0 * 0 + 0 * 0 = 1 := by norm_num
  have hlen : Real.sqrt ((1 : ℝ) * 1 + 0 * 0 + 0 * 0) = 1 := by
    rw [harg, Real.sqrt_one]
  refine ⟨?_, ?_, by norm_num⟩
  · rw [kernelVertex_inflate]
    dsimp only
    rw [hlen, if_pos (by norm_num), wgslClamp_zero]
    ext <;> dsimp only <;> norm_num
  · have harg2 : (1.5 : ℝ) * 1.5 + 0 * 0 + 0 * 0 = 1.5 ^ 2 := by norm_num
    rw [harg2, Real.sqrt_sq (by norm_num : (0:ℝ) ≤ 1.5)]

/-- Claim C3 (amended): for the Inflate branch (op 3), `param = 1` is the
identity for every vertex; vertices whose distance from the origin is at
most 0.001 are left unchanged for every param; and `param = 0` maps every
vertex with distance above the guard to `2 * v - 0.5 * (v / len)` — the
reflection away from the sphere-surface point, at distance
`|2 * len - 0.5|` from the origin — while `param = 2` is the parameter
that maps such a vertex to `0.5 * (v / len)`, distance 0.5 from the origin
along its original direction. -/
theorem inflate_kernel_amended :
    (∀ (param : ℝ) (vc pad : ℕ) (v : Vec3),
      Real.sqrt (v.x * v.x + v.y * v.y + v.z * v.z) ≤ 0.001 →
      kernelVertex ⟨3, param, vc, pad⟩ v = v) ∧
    (∀ (vc pad : ℕ) (v : Vec3), kernelVertex ⟨3, 1, vc, pad⟩ v = v) ∧
    (∀ (vc pad : ℕ) (v : Vec3),
      0.001 < Real.sqrt (v.x * v.x + v.y * v.y + v.z * v.z) →
      kernelVertex ⟨3, 0, vc, pad⟩ v =
        ⟨2 * v.x - 0.5 * (v.x / Real.sqrt (v.x * v.x + v.y * v.y + v.z * v.z)),
         2 * v.y - 0.5 * (v.y / Real.sqrt (v.x * v.x + v.y * v.y + v.z * v.z)),
         2 * v.z - 0.5 * (v.z / Real.sqrt (v.x * v.x + v.y * v.y + v.z * v.z))⟩) ∧
    (∀ (vc pad : ℕ) (v : Vec3),
      0.001 < Real.sqrt (v.x * v.x + v.y * v.y + v.z * v.z) →
      kernelVertex ⟨3, 2, vc, pad⟩ v =
        ⟨0.5 * (v.x / Real.sqrt (v.x * v.x + v.y * v.y + v.z * v.z)),
         0.5 * (v.y / Real.sqrt (v.x * v.x + v.y * v.y + v.z * v.z)),
         0.5 * (v.z / Real.sqrt (v.x * v.x + v.y * v.y + v.z * v.z))⟩) := by
  refine ⟨?_, ?_, ?_, ?_⟩
  · intro param vc pad v h
    rw [kernelVertex_inflate, if_neg (not_lt.mpr h)]
  · intro vc pad v
    rw [kernelVertex_inflate]
    split_ifs with hl
    · rw [wgslClamp_one]
      ext <;> dsimp only <;> ring
    · rfl
  · intro vc pad v h
    rw [kernelVertex_inflate, if_pos h, wgslClamp_zero]
    ext <;> dsimp only <;> ring
  · intro vc pad v h
    rw [kernelVertex_inflate, if_pos h, wgslClamp_two]
    ext <;> dsimp only <;> ring

theorem inflate_kernel_amended_witness :
    (0.001 : ℝ) < Real.sqrt ((1 : ℝ) * 1 + 0 * 0 + 0 * 0) ∧
    kernelVertex ⟨3, 0, 8, 0⟩ ⟨1, 0, 0⟩ =
      ⟨2 * 1 - 0.5 * ((1 : ℝ) / Real.sqrt ((1 : ℝ) * 1 + 0 * 0 + 0 * 0)),
       2 * 0 - 0.5 * ((0 : ℝ) / Real.sqrt ((1 : ℝ) * 1 + 0 * 0 + 0 * 0)),
       2 * 0 - 0.5 * ((0 : ℝ) / Real.sqrt ((1 : ℝ) * 1 + 0 * 0 + 0 * 0))⟩ := by
  have harg : (1 : ℝ) * 1 + 0 * 0 + 0 * 0 = 1 := by norm_num
  have h : (0.001 : ℝ) < Real.sqrt ((1 : ℝ) * 1 + 0 * 0 + 0 * 0) := by
    rw [harg, Real.sqrt_one]; norm_num
  exact ⟨h, inflate_kernel_amended.2.2.1 8 0 ⟨1, 0, 0⟩ h⟩

/-- Claim C10: every vertex at distance exactly 0.5 from the origin is a
fixed point of the Inflate branch for every param: the displacement factor
`v / len * 0.5 - v` vanishes when `len = 0.5`. -/
theorem inflate_fixes_sphere (param : ℝ) (vc pad : ℕ) (v : Vec3)
    (h : Real.sqrt (v.x * v.x + v.y * v.y + v.z * v.z) = 0.5) :
    kernelVertex ⟨3, param, vc, pad⟩ v = v := by
  rw [kernelVertex_inflate, h, if_pos (by norm_num : (0.5:ℝ) > 0.001)]
  ext <;> dsimp only <;> ring

theorem inflate_fixes_sphere_witness :
    Real.sqrt ((0.5 : ℝ) * 0.5 + 0 * 0 + 0 * 0) = 0.5 ∧
    kernelVertex ⟨3, 7, 8, 0⟩ ⟨0.5, 0, 0⟩ = ⟨0.5, 0, 0⟩ := by
  have harg : (0.5 : ℝ) * 0.5 + 0 * 0 + 0 * 0 = 0.5 ^ 2 := by norm_num
  have h : Real.sqrt ((0.5 : ℝ) * 0.5 + 0 * 0 + 0 * 0) = 0.5 := by
    rw [harg, Real.sqrt_sq (by norm_num : (0:ℝ) ≤ 0.5)]
  exact ⟨h, inflate_fixes_sphere 7 8 0 ⟨0.5, 0, 0⟩ h⟩

/-- Claim C5: for `vertexCount ≥ 1` the host dispatches exactly
`ceil(vertexCount / 64)` workgroups of size 64 (so at least `vertexCount`
invocations run); every invocation with global index at or beyond
`vertexCount` leaves the output buffer untouched; a full dispatch writes
nothing at or beyond flat offset `3 * vertexCount`; and every vertex index
below `vertexCount` gets its transformed triple written. -/
theorem dispatch_bounds_safe (op : ℕ) (param : ℝ) (vc pad : ℕ)
    (input out : ℕ → ℝ) (_hvc : 1 ≤ vc) :
    (workgroups vc = (vc + 63) / 64 ∧ vc ≤ workgroups vc * 64) ∧
    (∀ idx, vc ≤ idx → kernelInvoke ⟨op, param, vc, pad⟩ input idx out = out) ∧
    (∀ i, 3 * vc ≤ i → dispatch ⟨op, param, vc, pad⟩ input out i = out i) ∧
    (∀ idx, idx < vc →
      dispatch ⟨op, param, vc, pad⟩ input out (idx * 3) =
        (kernelVertex ⟨op, param, vc, pad⟩ (readVertex input (idx * 3))).x ∧
      dispatch ⟨op, param, vc, pad⟩ input out (idx * 3 + 1) =
        (kernelVertex ⟨op, param, vc, pad⟩ (readVertex input (idx * 3))).y ∧
      dispatch ⟨op, param, vc, pad⟩ input out (idx * 3 + 2) =
        (kernelVertex ⟨op, param, vc, pad⟩ (readVertex input (idx * 3))).z) := by
  refine ⟨⟨workgroups_eq_nat_ceil_div vc, vc_le_workgroups_mul vc⟩, ?_, ?_, ?_⟩
  · intro idx hidx
    simp [kernelInvoke, hidx]
  · intro i hi
    exact dispatch_out_of_range ⟨op, param, vc, pad⟩ input out i hi
  · intro idx hidx
    exact dispatch_at_vertex ⟨op, param, vc, pad⟩ input out idx hidx

theorem dispatch_bounds_safe_witness :
    (1 ≤ 8 ∧
      dispatch ⟨0, 1, 8, 0⟩ (fun _ => 0) (fun _ => 0) 24 = (fun _ => (0:ℝ)) 24) := by
  have h := (dispatch_bounds_safe 0 1 8 0 (fun _ => 0) (fun _ => 0)
    (by norm_num)).2.2.1 24 (by norm_num)
  exact ⟨by norm_num, h⟩

/-- Claim C6: `processOperation` encodes the parameter payload as exactly
16 bytes, little-endian: the u32 operation code at offset 0, the IEEE-754
bit pattern of the f32 param at offset 4, the u32 vertexCount at offset 8,
and a u32 reserved word equal to 0 at offset 12. -/
theorem uniform_layout_correct (opIndex paramBits vc : ℕ)
    (hop : opIndex < 4294967296) (hbits : paramBits < 4294967296)
    (hvc : vc < 4294967296) :
    (uniformData opIndex paramBits vc).length = 16 ∧
    getUint32LE (uniformData opIndex paramBits vc) 0 = opIndex ∧
    getUint32LE (uniformData opIndex paramBits vc) 4 = paramBits ∧
    getUint32LE (uniformData opIndex paramBits vc) 8 = vc ∧
    getUint32LE (uniformData opIndex paramBits vc) 12 = 0 := by
  rw [uniformData_bytes]
  refine ⟨rfl, ?_, ?_, ?_, ?_⟩ <;> simp [getUint32LE] <;> omega

theorem uniform_layout_correct_witness :
    ((0:ℕ) < 4294967296 ∧ (1065353216:ℕ) < 4294967296 ∧ (8:ℕ) < 4294967296) ∧
    ((uniformData 0 1065353216 8).length = 16 ∧
      getUint32LE (uniformData 0 1065353216 8) 0 = 0 ∧
      getUint32LE (uniformData 0 1065353216 8) 4 = 1065353216 ∧
      getUint32LE (uniformData 0 1065353216 8) 8 = 8 ∧
      getUint32LE (uniformData 0 1065353216 8) 12 = 0) :=
  ⟨⟨by norm_num, by norm_num, by norm_num⟩,
    uniform_layout_correct 0 1065353216 8 (by norm_num) (by norm_num) (by norm_num)⟩

/-- Claim C7: every operation name outside
scale / rotate / translate / inflate maps to operation code 0 through
`OP_MAP[operation] ?? 0`, the same code as the name scale, so the kernel
transforms every vertex exactly as Scale would for the same param. -/
theorem unknown_op_defaults_to_scale (name : String)
    (h : name ∉ (["scale", "rotate", "translate", "inflate"] : List String)) :
    opIndexOf name = 0 ∧
    opIndexOf name = opIndexOf "scale" ∧
    (∀ (param : ℝ) (vc pad : ℕ) (v : Vec3),
      kernelVertex ⟨opIndexOf name, param, vc, pad⟩ v =
        kernelVertex ⟨opIndexOf "scale", param, vc, pad⟩ v) := by
  simp only [List.mem_cons, List.mem_singleton, not_or] at h
  obtain ⟨h1, h2, h3, h4, -⟩ := h
  have hz : opIndexOf name = 0 := by
    simp [opIndexOf, OP_MAP, h1, h2, h3, h4]
  have hs : opIndexOf "scale" = 0 := rfl
  exact ⟨hz, by rw [hz, hs], fun param vc pad v => by rw [hz, hs]⟩

theorem unknown_op_defaults_to_scale_witness :
    "fnord" ∉ (["scale", "rotate", "translate", "inflate"] : List String) ∧
    opIndexOf "fnord" = 0 := by
  have h : "fnord" ∉ (["scale", "rotate", "translate", "inflate"] : List String) := by
    decide
  exact ⟨h, (unknown_op_defaults_to_scale "fnord" h).1⟩

theorem stepCmd_verticesRef (s : StlState) (c : Cmd) :
    (stepCmd s c).1.verticesRef = s.verticesRef := by
  cases c <;> rfl

theorem stepCmd_indices (s : StlState) (c : Cmd) :
    (stepCmd s c).1.indices = s.indices := by
  cases c <;> rfl

theorem stepCmd_next_mono (s : StlState) (c : Cmd) :
    s.heap.next ≤ (stepCmd s c).1.heap.next := by
  cases c with
  | process op param => exact le_refl _
  | getVertices =>
    simp [stepCmd, getProcessedVerticesStep, JSHeap.alloc]

theorem stepCmd_arrays_lt (s : StlState) (c : Cmd) (r : ℕ) (hr : r < s.heap.next) :
    (stepCmd s c).1.heap.arrays r = s.heap.arrays r := by
  cases c with
  | process op param => rfl
  | getVertices =>
    simp only [stepCmd, getProcessedVerticesStep, JSHeap.alloc]
    exact Function.update_noteq (Nat.ne_of_lt hr) _ _

theorem stepCmd_ret (s : StlState) (c : Cmd) (r : ℕ)
    (h : (stepCmd s c).2 = some r) : r = s.heap.next := by
  cases c with
  | process op param => simp [stepCmd] at h
  | getVertices =>
    simp only [stepCmd, getProcessedVerticesStep, JSHeap.alloc,
      Option.some.injEq] at h
    omega

/-- Claim C8: across any sequence of `processOperation` and
`getProcessedVertices` calls between resets, the stored mesh reference,
its array contents, and the index list are unchanged, and every array
returned by `getProcessedVertices` is a fresh allocation distinct from the
stored position array. -/
theorem mesh_not_mutated (s : StlState) (cmds : List Cmd) (hwf : StlWF s) :
    (runCmds s cmds).1.verticesRef = s.verticesRef ∧
    (runCmds s cmds).1.indices = s.indices ∧
    (runCmds s cmds).1.heap.arrays s.verticesRef = s.heap.arrays s.verticesRef ∧
    ∀ r ∈ (runCmds s cmds).2, s.heap.next ≤ r ∧ r ≠ s.verticesRef := by
  induction cmds generalizing s with
  | nil => exact ⟨rfl, rfl, rfl, by simp [runCmds]⟩
  | cons c cs ih =>
    have hwf1 : StlWF (stepCmd s c).1 := by
      have := stepCmd_next_mono s c
      have := stepCmd_verticesRef s c
      unfold StlWF at hwf ⊢
      omega
    obtain ⟨ihr, ihi, iha, ihm⟩ := ih (stepCmd s c).1 hwf1
    refine ⟨?_, ?_, ?_, ?_⟩
    · show (runCmds (stepCmd s c).1 cs).1.verticesRef = s.verticesRef
      rw [ihr, stepCmd_verticesRef]
    · show (runCmds (stepCmd s c).1 cs).1.indices = s.indices
      rw [ihi, stepCmd_indices]
    · show (runCmds (stepCmd s c).1 cs).1.heap.arrays s.verticesRef =
        s.heap.arrays s.verticesRef
      have hv : s.verticesRef = (stepCmd s c).1.verticesRef :=
        (stepCmd_verticesRef s c).symm
      calc (runCmds (stepCmd s c).1 cs).1.heap.arrays s.verticesRef
          = (stepCmd s c).1.heap.arrays s.verticesRef := by rw [hv, iha, ← hv]
        _ = s.heap.arrays s.verticesRef := stepCmd_arrays_lt s c _ hwf
    · intro r hr
      show s.heap.next ≤ r ∧ r ≠ s.verticesRef
      have hmem : r ∈ (stepCmd s c).2.toList ++ (runCmds (stepCmd s c).1 cs).2 := hr
      rcases List.mem_append.mp hmem with h1 | h2
      · have hsome : (stepCmd s c).2 = some r := by
          cases he : (stepCmd s c).2 with
          | none => rw [he] at h1; simp at h1
          | some r2 =>
            rw [he] at h1; simp at h1
            rw [h1]
        have := stepCmd_ret s c r hsome
        unfold StlWF at hwf
        omega
      · obtain ⟨hle, hne⟩ := ihm r h2
        have hmono := stepCmd_next_mono s c
        have hvr := stepCmd_verticesRef s c
        constructor
        · omega
        · rw [← hvr]; exact hne

theorem mesh_not_mutated_witness :
    StlWF ⟨⟨fun _ => [], 1⟩, 0, [], 0, fun _ => 0, fun _ => 0⟩ ∧
    ∀ r ∈ (runCmds ⟨⟨fun _ => [], 1⟩, 0, [], 0, fun _ => 0, fun _ => 0⟩
        [Cmd.getVertices]).2,
      (1 : ℕ) ≤ r ∧ r ≠ 0 := by
  have h : StlWF ⟨⟨fun _ => [], 1⟩, 0, [], 0, fun _ => 0, fun _ => 0⟩ :=
    Nat.zero_lt_one
  exact ⟨h,
    (mesh_not_mutated ⟨⟨fun _ => [], 1⟩, 0, [], 0, fun _ => 0, fun _ => 0⟩
      [Cmd.getVertices] h).2.2.2⟩

/-- Claim C9: a zero-area resize leaves the drawing-buffer size and depth
texture untouched (early return, no exception in the model since every
function is total); `render` submits nothing while the depth texture is
absent or the canvas width is 0; and from a state with no depth texture,
any sequence of zero-area resize events keeps `render` a no-op. -/
theorem zero_resize_safe :
    (∀ (s : RendererState) (w h : ℕ), w = 0 ∨ h = 0 →
      (resizeEvent s w h).canvas.width = s.canvas.width ∧
      (resizeEvent s w h).canvas.height = s.canvas.height ∧
      (resizeEvent s w h).depthTexture = s.depthTexture) ∧
    (∀ s : RendererState, s.depthTexture = none ∨ s.canvas.width = 0 →
      render s = none) ∧
    (∀ (s : RendererState) (events : List (ℕ × ℕ)),
      s.depthTexture = none →
      (∀ e ∈ events, e.1 = 0 ∨ e.2 = 0) →
      render (events.foldl (fun t e => resizeEvent t e.1 e.2) s) = none) := by
  have hresize : ∀ (s : RendererState) (w h : ℕ), w = 0 ∨ h = 0 →
      resizeEvent s w h =
        { s with canvas := { s.canvas with clientWidth := w, clientHeight := h } } := by
    intro s w h hwh
    simp only [resizeEvent, resizeCanvas]
    rw [if_pos hwh]
  refine ⟨?_, ?_, ?_⟩
  · intro s w h hwh
    rw [hresize s w h hwh]
    exact ⟨rfl, rfl, rfl⟩
  · intro s hs
    simp only [render]
    rw [if_pos hs]
  · intro s events hs hz
    induction events generalizing s with
    | nil =>
      simp only [List.foldl_nil, render]
      rw [if_pos (Or.inl hs)]
    | cons e es ih =>
      simp only [List.foldl_cons]
      refine ih _ ?_ (fun e2 h2 => hz e2 (List.mem_cons_self e es |> fun _ =>
        List.mem_cons_of_mem e h2))
      rw [hresize s e.1 e.2 (hz e (List.mem_cons_self e es))]
      exact hs

theorem zero_resize_safe_witness :
    ((⟨⟨0, 0, 0, 0⟩, none, 2.5, -0.4, 0.6⟩ : RendererState).depthTexture = none ∨
      (⟨⟨0, 0, 0, 0⟩, none, 2.5, -0.4, 0.6⟩ : RendererState).canvas.width = 0) ∧
    render (⟨⟨0, 0, 0, 0⟩, none, 2.5, -0.4, 0.6⟩ : RendererState) = none :=
  ⟨Or.inl rfl,
    zero_resize_safe.2.1 ⟨⟨0, 0, 0, 0⟩, none, 2.5, -0.4, 0.6⟩ (Or.inl rfl)⟩

end WebGpuStl
